import Mathlib

/-!
Shallow embedding of the Flax integration of the tango repository:
`FlaxDataLoader` (src/tango/integrations/flax/data.py) and
`FlaxEvalStep.run` (src/tango/integrations/flax/eval.py), together with
proofs of the behavioural properties stated about them.

Batches are represented by the list of row indices they gather, since every
property of interest is about which rows appear in which batch, in which
order, and about the scalar metrics computed from them.  Scalar metric
values are rationals; Python `dict`s of metrics are association lists with
Python's insertion-order update semantics.
-/

namespace Tango

/-- Python-level exceptions the embedded code can raise.  The constructor
`unsupportedSizeError` exists only because the specification names such a
dedicated error type; the code under `src/` never raises it. -/
inductive PyError where
  | keyError
  | attributeError
  | typeError
  | valueError
  | zeroDivisionError
  | configurationError
  | unsupportedSizeError
  deriving DecidableEq, Repr

instance {ε α : Type} [DecidableEq ε] [DecidableEq α] : DecidableEq (Except ε α) := fun x y =>
  match x, y with
  | .ok a, .ok b => if h : a = b then .isTrue (by simp [h]) else .isFalse (by simp [h])
  | .ok _, .error _ => .isFalse (by simp)
  | .error _, .ok _ => .isFalse (by simp)
  | .error e, .error f => if h : e = f then .isTrue (by simp [h]) else .isFalse (by simp [h])

/-- The collection handed to `FlaxDataLoader`: a Python `dict` whose optional
`"num_rows"` entry may itself be Python `None` (`some none`) or an integer
(`some (some n)`) or absent (`none`); a `datasets.Dataset` carrying its
`num_rows` attribute; or any other object (e.g. a streaming dataset) that
exposes no `num_rows` at all. -/
inductive DatasetKind where
  | pyDict (numRowsEntry : Option (Option Nat))
  | hfDataset (numRows : Nat)
  | other
  deriving DecidableEq, Repr

/-- Fields stored by `FlaxDataLoader.__init__`. -/
structure FlaxDataLoader where
  dataset : DatasetKind
  batch_size : Nat
  drop_last : Bool
  shuffle : Bool
  dataset_size : Option Nat
  deriving DecidableEq, Repr

/-- `FlaxDataLoader._get_size`:
`self.dataset["num_rows"] if type(self.dataset) is dict else self.dataset.num_rows`.
A dict without the key raises `KeyError`; any non-dict object without a
`num_rows` attribute raises `AttributeError`; a stored Python `None` is
returned as `none`. -/
def FlaxDataLoader._get_size : DatasetKind → Except PyError (Option Nat)
  | .pyDict none => .error .keyError
  | .pyDict (some v) => .ok v
  | .hfDataset n => .ok (some n)
  | .other => .error .attributeError

/-- `FlaxDataLoader.__init__`: stores the four arguments and caches
`self.dataset_size = self._get_size()`. -/
def FlaxDataLoader.make (dataset : DatasetKind) (batch_size : Nat)
    (drop_last : Bool) (shuffle : Bool) : Except PyError FlaxDataLoader :=
  match FlaxDataLoader._get_size dataset with
  | .error e => .error e
  | .ok sz => .ok ⟨dataset, batch_size, drop_last, shuffle, sz⟩

/-- One step of a 64-bit linear congruential generator (Knuth's MMIX
constants), used to drive the modelled pseudo-random permutation. -/
def lcgNext (s : Nat) : Nat := (6364136223846793005 * s + 1442695040888963407) % (2 ^ 64)

/-- Fisher–Yates-style selection shuffle driven by `lcgNext`; the fuel
argument (instantiated with the list length) makes the recursion
structural. -/
def shuffleAux : Nat → Nat → List Nat → List Nat
  | 0, _, _ => []
  | _ + 1, _, [] => []
  | fuel + 1, s, x :: xs =>
    let l := x :: xs
    let i := s % l.length
    if h : i < l.length then
      let a := l.get ⟨i, h⟩
      a :: shuffleAux fuel (lcgNext s) (l.erase a)
    else []

/-- Modelled deterministic stand-in for the external library primitive
`jax.random.permutation(rng, n)`: a pseudo-random permutation of
`range n` that is a pure function of the key, exactly as the JAX primitive
is a pure function of its PRNG key. -/
def jaxPermutation (key n : Nat) : List Nat := shuffleAux n key (List.range n)

/-- Row-major reshape of a flat index vector into `n` rows of `k` columns,
as `perms.reshape((steps_per_epoch, batch_size))` lays the data out. -/
def reshapeRows (n k : Nat) (l : List Nat) : List (List Nat) :=
  (List.range n).map (fun i => (l.drop (i * k)).take k)

/-- `FlaxDataLoader.__call__(rng, do_distributed)`, with each yielded batch
represented by the list of row indices it gathers (`shard` only reshapes the
leading dimension of every field across devices, leaving row content and
order unchanged, so the index list also represents a sharded batch).  The
source computes `steps_per_epoch = self.dataset_size // self.batch_size`
(raising `TypeError` on an unknown size and `ZeroDivisionError` on a zero
batch size) and then immediately overwrites the result with the literal
`1`, so only the error effects of the dead division remain.  Slicing keeps
the first `steps_per_epoch * batch_size` indices; the subsequent `reshape`
fails if fewer indices than that are available.  Each loop iteration
type-checks the dataset (`dict` or `datasets.Dataset`, else `ValueError`)
and, when `do_distributed`, `shard` requires the batch size to divide
evenly across the devices. -/
def FlaxDataLoader.call (ld : FlaxDataLoader) (rng : Nat) (do_distributed : Bool)
    (num_devices : Nat) : Except PyError (List (List Nat)) :=
  match ld.dataset_size with
  | none => .error .typeError
  | some size =>
    if ld.batch_size = 0 then .error .zeroDivisionError
    else
      let steps_per_epoch := 1
      let perms := if ld.shuffle then jaxPermutation rng size else List.range size
      let perms := perms.take (steps_per_epoch * ld.batch_size)
      if perms.length = steps_per_epoch * ld.batch_size then
        let rows := reshapeRows steps_per_epoch ld.batch_size perms
        match ld.dataset with
        | .pyDict _ =>
          if do_distributed then
            if ld.batch_size % num_devices = 0 then .ok rows else .error .valueError
          else .ok rows
        | .hfDataset _ =>
          if do_distributed then
            if ld.batch_size % num_devices = 0 then .ok rows else .error .valueError
          else .ok rows
        | .other => .error .valueError
      else .error .typeError

/-- A Python `dict` of scalar metrics, as an insertion-ordered association
list from metric name to rational value. -/
abbrev MetricDict := List (String × ℚ)

/-- Value stored under `k`, as Python `d[k]` finds it (first matching key). -/
def dictFind : MetricDict → String → Option ℚ
  | [], _ => none
  | p :: ps, k => if p.1 = k then some p.2 else dictFind ps k

/-- Read of a `defaultdict(float)` entry: a missing key reads as `0.0`. -/
def dictGetD (d : MetricDict) (k : String) : ℚ := (dictFind d k).getD 0

/-- Key-membership test for a Python dict. -/
def dictMem (d : MetricDict) (k : String) : Bool := (dictFind d k).isSome

/-- Python `d[k] = v`: replaces the entry in place when the key exists
(preserving insertion order), appends otherwise. -/
def dictSet : MetricDict → String → ℚ → MetricDict
  | [], k, v => [(k, v)]
  | p :: ps, k, v => if p.1 = k then (k, v) :: ps else p :: dictSet ps k v

/-- The keys of a metric dict are pairwise distinct, as they always are for
an actual Python dict. -/
def keysNodup (d : MetricDict) : Prop := (d.map Prod.fst).Nodup

/-- The body of the per-step aggregation block iterating over
`metrics.items()`: for each reported `key` contained in `metric_names`,
`running_metrics[key] += metrics[key].item()` and
`aggregated_metrics[key] = running_metrics[key] / (step + 1)`.
`whole` is the step's full metrics dict (the source indexes `metrics[key]`,
not the loop value), `items` the tail of items still to process. -/
def updateItems (metric_names : List String) (stepIdx : Nat) (whole : MetricDict) :
    MetricDict × MetricDict → MetricDict → MetricDict × MetricDict
  | ra, [] => ra
  | ra, kv :: rest =>
    if kv.1 ∈ metric_names then
      let newRunning := dictSet ra.1 kv.1 (dictGetD ra.1 kv.1 + dictGetD whole kv.1)
      updateItems metric_names stepIdx whole
        (newRunning, dictSet ra.2 kv.1 (dictGetD newRunning kv.1 / ((stepIdx : ℚ) + 1)))
        rest
    else updateItems metric_names stepIdx whole ra rest

/-- One step of the metric-aggregation block of `FlaxEvalStep.run`: in
auto-aggregate mode run `updateItems` over the step's metrics; otherwise
`aggregated_metrics.update(metrics)` overwrites entries directly. -/
def updateMetricsStep (auto_aggregate : Bool) (metric_names : List String) (stepIdx : Nat)
    (running agg : MetricDict) (metrics : MetricDict) : MetricDict × MetricDict :=
  if auto_aggregate then updateItems metric_names stepIdx metrics (running, agg) metrics
  else (running, metrics.foldl (fun a kv => dictSet a kv.1 kv.2) agg)

/-- Observable events of one orchestrator run: callback hook invocations
(identified by the callback's position in the registration list) and
applications of the user evaluation function. -/
inductive Event where
  | preEvalLoop (cb : Nat)
  | preBatch (cb : Nat) (step : Nat)
  | evalApply (step : Nat)
  | postBatch (cb : Nat) (step : Nat)
  | postEvalLoop (cb : Nat)
  deriving DecidableEq, Repr

/-- An `EvalCallback` bound to a run: each hook either returns normally
(`ok`) or raises (`error`).  `Λ` is the type of the predictions (`logits`)
handed to `post_batch`. -/
structure EvalCallback (Λ : Type) where
  pre_eval_loop : Except PyError Unit
  pre_batch : Nat → List Nat → Except PyError Unit
  post_batch : Nat → Λ → Except PyError Unit
  post_eval_loop : MetricDict → Except PyError Unit

/-- Runs one hook on every callback in registration order, starting at
position `i`, recording an event per invocation; the first raising hook
stops the sweep and its exception propagates. -/
def runHooksFrom (mk : Nat → Event) (i : Nat) :
    List (Except PyError Unit) → List Event × Except PyError Unit
  | [] => ([], .ok ())
  | r :: rs =>
    match r with
    | .error e => ([mk i], .error e)
    | .ok _ =>
      let p := runHooksFrom mk (i + 1) rs
      (mk i :: p.1, p.2)

/-- The batch loop of `FlaxEvalStep.run`: for each batch, invoke
`pre_batch` on every callback, apply the evaluation function to the state
and batch, invoke `post_batch` on every callback, update the metric
aggregates, and recurse on the remaining batches with the incremented step
index.  Returns the event trace together with either the propagated
exception or the final (state, aggregated metrics) pair.  `σ` is the type
of the evaluation state threaded through the user evaluation function. -/
def evalLoop {σ Λ : Type} (cbs : List (EvalCallback Λ))
    (evalFn : σ → List Nat → σ × Λ × MetricDict)
    (auto_aggregate : Bool) (metric_names : List String) :
    σ → Nat → MetricDict → MetricDict → List (List Nat) →
    List Event × Except PyError (σ × MetricDict)
  | s, _, _, agg, [] => ([], .ok (s, agg))
  | s, stepIdx, running, agg, b :: bs =>
    match runHooksFrom (fun i => Event.preBatch i stepIdx) 0
        (cbs.map (fun c => c.pre_batch stepIdx b)) with
    | (preEvs, .error e) => (preEvs, .error e)
    | (preEvs, .ok _) =>
      match evalFn s b with
      | (s2, lg, mtr) =>
        match runHooksFrom (fun i => Event.postBatch i stepIdx) 0
            (cbs.map (fun c => c.post_batch stepIdx lg)) with
        | (postEvs, .error e) => (preEvs ++ [Event.evalApply stepIdx] ++ postEvs, .error e)
        | (postEvs, .ok _) =>
          match updateMetricsStep auto_aggregate metric_names stepIdx running agg mtr with
          | (running2, agg2) =>
            match evalLoop cbs evalFn auto_aggregate metric_names s2 (stepIdx + 1)
                running2 agg2 bs with
            | (restEvs, res) =>
              (preEvs ++ [Event.evalApply stepIdx] ++ postEvs ++ restEvs, res)

/-- The step-budget resolution of `FlaxEvalStep.run`, translating its
`try`/`except TypeError` block.  Reading `dataloader.dataset_size` never
raises; the only possible `TypeError` comes from `min(None, eval_steps)`
when the size is unknown and `eval_steps` is given, in which case the
handler sets `steps = eval_steps`.  With both unknown, no exception occurs,
`steps` is simply Python `None`, and the
`raise ConfigurationError("You must set 'eval_steps' ...")` in the handler
is unreachable: no path of this function produces an error. -/
def resolveSteps : Option Nat → Option Nat → Except PyError (Option Nat)
  | some n, none => .ok (some n)
  | some n, some e => .ok (some (min n e))
  | none, none => .ok none
  | none, some e => .ok (some e)

/-- The distributed-mode guard of `FlaxEvalStep.run`: with `do_distributed`
set, `len(jax.devices()) <= 1` raises `ConfigurationError`. -/
def deviceCheck (do_distributed : Bool) (num_devices : Nat) : Except PyError Unit :=
  if do_distributed then
    if num_devices ≤ 1 then .error .configurationError else .ok ()
  else .ok ()

/-- The batch supply consumed by the evaluation loop:
`islice(dataloader(rng, do_distributed), steps)`.  `islice(gen, 0)` never
advances the generator, so generator-time errors only surface once at least
one batch is demanded; a `steps` of Python `None` iterates the whole
generator. -/
def evalBatches (ld : FlaxDataLoader) (seed : Nat) (do_distributed : Bool)
    (num_devices : Nat) : Option Nat → Except PyError (List (List Nat))
  | some 0 => .ok []
  | some (s + 1) =>
    match FlaxDataLoader.call ld seed do_distributed num_devices with
    | .error e => .error e
    | .ok bsAll => .ok (bsAll.take (s + 1))
  | none => FlaxDataLoader.call ld seed do_distributed num_devices

/-- `FlaxEvalStep.run`, over the embedded collaborators: constructs the
data loader from the dataset split, resolves the step budget, checks the
device count, invokes `pre_eval_loop` on every callback, consumes
`islice(dataloader(rng, do_distributed), steps)` through the batch loop
(`islice(gen, 0)` never advances the generator, so generator-time errors
only surface once at least one batch is demanded), and finally invokes
`post_eval_loop` with the aggregated metrics.  The result carries the final
evaluation state alongside the returned aggregate so that the treatment of
the state by the orchestrator is observable; the Python function returns
the aggregate only.  The `model.params = state.params` write mutates the
model object, not the state, and no claim tracks the model, so it is not
represented. -/
def FlaxEvalStep.run {σ Λ : Type} (dataset : DatasetKind) (batch_size : Nat)
    (drop_last : Bool) (shuffle : Bool) (state : σ)
    (evalFn : σ → List Nat → σ × Λ × MetricDict)
    (seed : Nat) (do_distributed : Bool) (num_devices : Nat)
    (eval_steps : Option Nat) (metric_names : List String)
    (auto_aggregate_metrics : Bool) (callbacks : List (EvalCallback Λ)) :
    List Event × Except PyError (σ × MetricDict) :=
  match FlaxDataLoader.make dataset batch_size drop_last shuffle with
  | .error e => ([], .error e)
  | .ok ld =>
    match resolveSteps ld.dataset_size eval_steps with
    | .error e => ([], .error e)
    | .ok steps =>
      match deviceCheck do_distributed num_devices with
      | .error e => ([], .error e)
      | .ok _ =>
        match runHooksFrom (fun i => Event.preEvalLoop i) 0
            (callbacks.map (fun c => c.pre_eval_loop)) with
        | (preEvs, .error e) => (preEvs, .error e)
        | (preEvs, .ok _) =>
          match evalBatches ld seed do_distributed num_devices steps with
          | .error e => (preEvs, .error e)
          | .ok batches =>
            match evalLoop callbacks evalFn auto_aggregate_metrics metric_names
                state 0 [] [] batches with
            | (loopEvs, .error e) => (preEvs ++ loopEvs, .error e)
            | (loopEvs, .ok sagg) =>
              match runHooksFrom (fun i => Event.postEvalLoop i) 0
                  (callbacks.map (fun c => c.post_eval_loop sagg.2)) with
              | (postEvs, .error e) => (preEvs ++ loopEvs ++ postEvs, .error e)
              | (postEvs, .ok _) => (preEvs ++ loopEvs ++ postEvs, .ok sagg)

/-! Helper lemmas about the embedded definitions. -/

lemma resolveSteps_exists (a b : Option Nat) : ∃ s, resolveSteps a b = .ok s := by
  cases a <;> cases b <;> exact ⟨_, rfl⟩

lemma shuffleAux_perm : ∀ (fuel s : Nat) (l : List Nat), l.length ≤ fuel →
    (shuffleAux fuel s l).Perm l := by
  intro fuel
  induction fuel with
  | zero =>
    intro s l hl
    rw [Nat.le_zero, List.length_eq_zero] at hl
    subst hl
    simp [shuffleAux]
  | succ n ih =>
    intro s l hl
    match l with
    | [] => simp [shuffleAux]
    | x :: xs =>
      have hlen : s % (x :: xs).length < (x :: xs).length := Nat.mod_lt _ (by simp)
      rw [shuffleAux, dif_pos hlen]
      have hmem : (x :: xs).get ⟨s % (x :: xs).length, hlen⟩ ∈ x :: xs := List.get_mem _ _ hlen
      have herase : ((x :: xs).erase ((x :: xs).get ⟨s % (x :: xs).length, hlen⟩)).length ≤ n := by
        rw [List.length_erase_of_mem hmem]
        simp only [List.length_cons] at hl ⊢
        omega
      exact ((ih (lcgNext s) _ herase).cons _).trans (List.perm_cons_erase hmem).symm

lemma jaxPermutation_perm (key n : Nat) : (jaxPermutation key n).Perm (List.range n) :=
  shuffleAux_perm n key (List.range n) (by simp)

lemma jaxPermutation_length (key n : Nat) : (jaxPermutation key n).length = n := by
  simpa using (jaxPermutation_perm key n).length_eq

/-! Claim theorems. -/

/-- C1: the specification states that iterating the loader with shuffle
disabled yields `S // B` batches whose concatenated row indices equal
`range((S // B) * B)`.  The source computes `steps_per_epoch =
dataset_size // batch_size` and then overwrites it with the literal `1`, so
for `S = 4`, `B = 2` the loader yields the single batch `[0, 1]` instead of
the two batches `[0, 1]`, `[2, 3]`: the code contradicts the specified (and
clearly intended, given the dead division it overwrites) behaviour. -/
theorem c1_dataloader_single_batch_bug :
    FlaxDataLoader.call ⟨.hfDataset 4, 2, true, false, some 4⟩ 7 false 1 = .ok [[0, 1]] ∧
    ([[0, 1]] : List (List Nat)).length ≠ 4 / 2 ∧
    ([[0, 1]] : List (List Nat)).flatten ≠ List.range (4 / 2 * 2) := by
  decide

/-- C3: the specification states that an unsized batch source without an
explicit step budget makes `run()` raise `ConfigurationError`, and that
supplying a budget of 5 makes it evaluate exactly 5 batches.  In the code
the `ConfigurationError` branch is unreachable (with `eval_steps = None` no
`TypeError` can arise in the `try` block), so a sizeless source — here a
dict whose `"num_rows"` entry is Python `None` — instead reaches the
generator, whose `dataset_size // batch_size` raises `TypeError`; with
`eval_steps = 5` the `min(None, 5)` `TypeError` is caught and `steps = 5`,
but the generator still raises the same `TypeError` before yielding any
batch. -/
theorem c3_configuration_error_unreachable :
    FlaxEvalStep.run (σ := Unit) (Λ := Unit) (.pyDict (some none)) 2 true false ()
        (fun s _b => (s, (), [("loss", 1)])) 42 false 1 none ["loss"] true [] =
      ([], .error .typeError) ∧
    FlaxEvalStep.run (σ := Unit) (Λ := Unit) (.pyDict (some none)) 2 true false ()
        (fun s _b => (s, (), [("loss", 1)])) 42 false 1 (some 5) ["loss"] true [] =
      ([], .error .typeError) ∧
    PyError.typeError ≠ PyError.configurationError := by
  refine ⟨by decide, by decide, by decide⟩

/-- C8 counterexample: the claim says the size query fails with a dedicated
`UnsupportedSizeError` when the collection exposes no row count; on an
object without a `num_rows` attribute `_get_size` raises the generic
`AttributeError` instead, so the claim is false as stated. -/
theorem c8_no_unsupported_size_error :
    FlaxDataLoader._get_size .other = .error .attributeError ∧
    FlaxDataLoader._get_size .other ≠ .error .unsupportedSizeError := by
  decide

/-- C8 amended: `_get_size` returns the `"num_rows"` entry of a dict
(which may itself be Python `None`) or the `num_rows` attribute of a
`datasets.Dataset`; a dict lacking the key fails with `KeyError` and any
other object without the attribute fails with `AttributeError` — no
dedicated `UnsupportedSizeError` type exists in the code. -/
theorem c8_size_query_behaviour :
    (∀ n : Nat, FlaxDataLoader._get_size (.hfDataset n) = .ok (some n)) ∧
    (∀ v : Option Nat, FlaxDataLoader._get_size (.pyDict (some v)) = .ok v) ∧
    FlaxDataLoader._get_size (.pyDict none) = .error .keyError ∧
    FlaxDataLoader._get_size .other = .error .attributeError :=
  ⟨fun _ => rfl, fun _ => rfl, rfl, rfl⟩

/-- C10: the `drop_last` flag is stored by `__init__` but never read by
`__call__`, so for every dataset, batch size, shuffle setting, seed,
distributed setting and device count the produced batch sequence is
identical for the two values of the flag. -/
theorem c10_drop_last_has_no_effect (d : DatasetKind) (B : Nat) (dl dl2 sh : Bool)
    (sz : Option Nat) (seed : Nat) (dd : Bool) (nd : Nat) :
    FlaxDataLoader.call ⟨d, B, dl, sh, sz⟩ seed dd nd =
      FlaxDataLoader.call ⟨d, B, dl2, sh, sz⟩ seed dd nd := rfl

/-- C4: with the distributed flag set and at most one device, `run()`
raises `ConfigurationError` before any callback or batch event occurs
(empty event trace); with more than one device the device check passes. -/
theorem c4_distributed_device_check {σ Λ : Type} (dataset : DatasetKind) (B : Nat)
    (dl sh : Bool) (state : σ) (evalFn : σ → List Nat → σ × Λ × MetricDict)
    (seed nd : Nat) (es : Option Nat) (mn : List String) (auto : Bool)
    (cbs : List (EvalCallback Λ)) (ld : FlaxDataLoader)
    (hmk : FlaxDataLoader.make dataset B dl sh = .ok ld) :
    (nd ≤ 1 →
      FlaxEvalStep.run dataset B dl sh state evalFn seed true nd es mn auto cbs =
        ([], .error .configurationError)) ∧
    (1 < nd → deviceCheck true nd = .ok ()) := by
  constructor
  · intro hnd
    obtain ⟨st, hst⟩ := resolveSteps_exists ld.dataset_size es
    unfold FlaxEvalStep.run
    simp only [hmk]
    simp only [hst]
    simp [deviceCheck, hnd]
  · intro hnd
    simp [deviceCheck, Nat.not_le.mpr hnd]

/-- Witness for C4: a dataset of 2 rows, batch size 1 and one device
triggers the error; two devices pass the check. -/
theorem c4_distributed_device_check_witness :
    (FlaxEvalStep.run (σ := Unit) (Λ := Unit) (.hfDataset 2) 1 true false ()
        (fun s _b => (s, (), [])) 0 true 1 none ["loss"] true [] =
      ([], .error .configurationError)) ∧
    deviceCheck true 2 = .ok () := by
  constructor
  · exact (c4_distributed_device_check (.hfDataset 2) 1 true false ()
      (fun s _b => (s, (), [])) 0 1 none ["loss"] true [] _ rfl).1 (by decide)
  · exact (c4_distributed_device_check (.hfDataset 2) 1 true false ()
      (fun s _b => (s, (), [])) 0 2 none ["loss"] true [] _ rfl).2 (by decide)

/-- C7: with shuffle enabled the loader draws its row indices from a
pseudo-random permutation of the dataset's indices (it yields the single
batch holding that permutation's first `B` entries), and the output is a
pure function of the seed, so equal seeds yield exactly the same index
sequence. -/
theorem c7_shuffle_permutation_and_determinism (seed S B : Nat) (dl : Bool)
    (hB : 0 < B) (hBS : B ≤ S) :
    ∃ p : List Nat, p.Perm (List.range S) ∧
      FlaxDataLoader.call ⟨.hfDataset S, B, dl, true, some S⟩ seed false 1 = .ok [p.take B] ∧
      ∀ seed2, seed2 = seed →
        FlaxDataLoader.call ⟨.hfDataset S, B, dl, true, some S⟩ seed2 false 1 =
          FlaxDataLoader.call ⟨.hfDataset S, B, dl, true, some S⟩ seed false 1 := by
  refine ⟨jaxPermutation seed S, jaxPermutation_perm seed S, ?_, fun seed2 h => by rw [h]⟩
  have hlen : ((jaxPermutation seed S).take (1 * B)).length = 1 * B := by
    simp [List.length_take, jaxPermutation_length, Nat.min_eq_left hBS]
  simp only [FlaxDataLoader.call, hB.ne', if_false, if_true, hlen, reshapeRows]
  simp [List.range_succ, List.take_take, Nat.min_self, hB.ne']

/-- Number of evaluation-function applications recorded in a trace. -/
def countEvalEvents (tr : List Event) : Nat :=
  (tr.filter (fun e => match e with | .evalApply _ => true | _ => false)).length

/-- C2: the specification's scenario — 10 rows, batch size 2, shuffle off,
no step budget, auto-aggregation of {"loss"}, evaluation returning
`loss = 1.0` each step — is claimed to execute exactly 5 steps and return
`{"loss": 1.0}`.  Because the loader hardcodes `steps_per_epoch = 1`,
`run()` evaluates exactly one batch; the returned aggregate still equals
`{"loss": 1.0}` (1.0 / 1), but the step count contradicts the claimed
`10 // 2 = 5`. -/
theorem c2_scenario_runs_one_step :
    FlaxEvalStep.run (σ := Unit) (Λ := Unit) (.hfDataset 10) 2 true false ()
        (fun s _b => (s, (), [("loss", 1)])) 42 false 1 none ["loss"] true [] =
      ([Event.evalApply 0], .ok ((), [("loss", 1)])) ∧
    countEvalEvents [Event.evalApply 0] = 1 ∧ (1 : Nat) ≠ 10 / 2 := by
  refine ⟨?_, by decide, by decide⟩
  norm_num [FlaxEvalStep.run, FlaxDataLoader.make, FlaxDataLoader._get_size, resolveSteps,
    deviceCheck, evalBatches, FlaxDataLoader.call, reshapeRows, evalLoop, runHooksFrom,
    updateMetricsStep, updateItems, dictSet, dictGetD, dictFind, List.range_succ]

/-- The batch loop never changes the evaluation state on its own: whenever
the user evaluation function returns the state it was given, the loop's
final state is its initial state. -/
lemma evalLoop_preserves_state {σ Λ : Type} (cbs : List (EvalCallback Λ))
    (evalFn : σ → List Nat → σ × Λ × MetricDict) (auto : Bool) (mn : List String)
    (hframe : ∀ s b, (evalFn s b).1 = s) :
    ∀ (bs : List (List Nat)) (s : σ) (idx : Nat) (running agg : MetricDict)
      (s2 : σ) (a : MetricDict),
      (evalLoop cbs evalFn auto mn s idx running agg bs).2 = .ok (s2, a) → s2 = s := by
  intro bs
  induction bs with
  | nil =>
    intro s idx running agg s2 a h
    simp only [evalLoop, Except.ok.injEq, Prod.mk.injEq] at h
    exact h.1.symm
  | cons b bs ih =>
    intro s idx running agg s2 a h
    rw [evalLoop] at h
    split at h
    · simp at h
    · rename_i preEvs hpreEq
      split at h
      rename_i sb lg mtr hevalEq
      have hsb : sb = s := by
        have := hframe s b
        rw [hevalEq] at this
        exact this
      split at h
      · simp at h
      · split at h
        rename_i running2 agg2 hupd
        split at h
        rename_i restEvs res hrestEq
        simp only at h
        subst h
        exact (ih sb (idx + 1) running2 agg2 s2 a (by rw [hrestEq])).trans hsb

/-- C9: the orchestrator passes the evaluation state through unchanged:
whenever the user evaluation function returns its state argument untouched,
a successful `run()` ends with exactly the state it was given, so any state
change during a run can only come from the evaluation function itself. -/
theorem c9_state_passed_through {σ Λ : Type} (dataset : DatasetKind) (B : Nat)
    (dl sh : Bool) (state : σ) (evalFn : σ → List Nat → σ × Λ × MetricDict)
    (seed dd_num : Nat) (dd : Bool) (es : Option Nat) (mn : List String)
    (auto : Bool) (cbs : List (EvalCallback Λ)) (s2 : σ) (agg : MetricDict)
    (hframe : ∀ s b, (evalFn s b).1 = s)
    (h : (FlaxEvalStep.run dataset B dl sh state evalFn seed dd dd_num es mn auto cbs).2 =
      .ok (s2, agg)) : s2 = state := by
  unfold FlaxEvalStep.run at h
  split at h; · simp at h
  split at h; · simp at h
  split at h; · simp at h
  split at h; · simp at h
  split at h; · simp at h
  split at h; · simp at h
  rename_i loopEvs sagg hloop
  split at h; · simp at h
  simp only [Except.ok.injEq] at h
  subst h
  exact evalLoop_preserves_state cbs evalFn auto mn hframe _ state 0 [] [] s2 agg
    (by rw [hloop])

/-- Witness for C9: a one-row run with a state-preserving evaluation
function succeeds and returns the state 7 it was started with. -/
theorem c9_state_passed_through_witness : (7 : Nat) = 7 ∧
    (FlaxEvalStep.run (σ := Nat) (Λ := Unit) (.hfDataset 1) 1 true false 7
        (fun s _b => (s, (), [])) 0 false 1 none ["loss"] true []).2 =
      .ok (7, ([] : MetricDict)) := by
  have hrun : (FlaxEvalStep.run (σ := Nat) (Λ := Unit) (.hfDataset 1) 1 true false 7
      (fun s _b => (s, (), [])) 0 false 1 none ["loss"] true []).2 =
      .ok (7, ([] : MetricDict)) := by decide
  exact ⟨by
    have := c9_state_passed_through (σ := Nat) (Λ := Unit) (.hfDataset 1) 1 true false 7
      (fun s _b => (s, (), [])) 0 1 false none ["loss"] true [] 7 [] (fun _ _ => rfl) hrun
    exact this, hrun⟩

/-- Expected per-step event pattern for two callbacks: both `pre_batch`
hooks in registration order, then the evaluation-function application, then
both `post_batch` hooks in registration order. -/
def stepTrace2 (j : Nat) : List Event :=
  [.preBatch 0 j, .preBatch 1 j, .evalApply j, .postBatch 0 j, .postBatch 1 j]

/-- Concatenation of `stepTrace2` for `n` consecutive step indices starting
at `j`. -/
def trace2From : Nat → Nat → List Event
  | _, 0 => []
  | j, n + 1 => stepTrace2 j ++ trace2From (j + 1) n

lemma evalLoop2_trace {σ Λ : Type} (A B : EvalCallback Λ)
    (evalFn : σ → List Nat → σ × Λ × MetricDict) (auto : Bool) (mn : List String)
    (hpreA : ∀ i b, A.pre_batch i b = .ok ()) (hpreB : ∀ i b, B.pre_batch i b = .ok ())
    (hpostA : ∀ i x, A.post_batch i x = .ok ()) (hpostB : ∀ i x, B.post_batch i x = .ok ()) :
    ∀ (bs : List (List Nat)) (s : σ) (idx : Nat) (running agg : MetricDict),
      (evalLoop [A, B] evalFn auto mn s idx running agg bs).1 = trace2From idx bs.length := by
  intro bs
  induction bs with
  | nil => intro s idx running agg; simp [evalLoop, trace2From]
  | cons b bs ih =>
    intro s idx running agg
    rcases hev : evalFn s b with ⟨s2, lg, mtr⟩
    rcases hupd : updateMetricsStep auto mn idx running agg mtr with ⟨running2, agg2⟩
    rcases hrec : evalLoop [A, B] evalFn auto mn s2 (idx + 1) running2 agg2 bs
      with ⟨restEvs, res⟩
    have hres : restEvs = trace2From (idx + 1) bs.length := by
      have := ih s2 (idx + 1) running2 agg2
      rw [hrec] at this
      exact this
    rw [evalLoop]
    simp only [List.map_cons, List.map_nil, runHooksFrom, hpreA, hpreB, hpostA, hpostB,
      hev, hupd, hrec]
    simp [trace2From, stepTrace2, hres]

/-- C6: with callbacks [A, B] whose hooks all succeed, the loop's event
trace is, for each consecutive step index, A's `pre_batch` then B's
`pre_batch` (registration order), then the evaluation-function application,
then A's `post_batch` and B's `post_batch` in order; and an exception from
any hook propagates immediately and aborts the remainder: a raising
`pre_batch` of either callback ends the loop at that invocation with no
evaluation of that batch, a raising `post_batch` of either callback ends it
right after that invocation with no further steps, a raising
`pre_eval_loop` of either callback aborts `run()` before any batch work,
and a raising `post_eval_loop` of either callback makes `run()` propagate
the exception right after that invocation. -/
theorem c6_callback_order_and_propagation {σ Λ : Type} (A B : EvalCallback Λ)
    (evalFn : σ → List Nat → σ × Λ × MetricDict) (auto : Bool) (mn : List String)
    (s0 : σ) (running agg : MetricDict) (bs : List (List Nat))
    (hpreA : ∀ i b, A.pre_batch i b = .ok ()) (hpreB : ∀ i b, B.pre_batch i b = .ok ())
    (hpostA : ∀ i x, A.post_batch i x = .ok ()) (hpostB : ∀ i x, B.post_batch i x = .ok ()) :
    (evalLoop [A, B] evalFn auto mn s0 0 running agg bs).1 = trace2From 0 bs.length ∧
    (∀ (A2 B2 : EvalCallback Λ) (e : PyError) (i : Nat) (b : List Nat)
        (rest : List (List Nat)) (s : σ) (running2 agg2 : MetricDict),
      A2.pre_batch i b = .error e →
      evalLoop [A2, B2] evalFn auto mn s i running2 agg2 (b :: rest) =
        ([Event.preBatch 0 i], .error e)) ∧
    (∀ (A2 B2 : EvalCallback Λ) (e : PyError) (i : Nat) (b : List Nat)
        (rest : List (List Nat)) (s : σ) (running2 agg2 : MetricDict),
      A2.pre_batch i b = .ok () → B2.pre_batch i b = .error e →
      evalLoop [A2, B2] evalFn auto mn s i running2 agg2 (b :: rest) =
        ([Event.preBatch 0 i, Event.preBatch 1 i], .error e)) ∧
    (∀ (A2 B2 : EvalCallback Λ) (e : PyError) (i : Nat) (b : List Nat)
        (rest : List (List Nat)) (s : σ) (running2 agg2 : MetricDict),
      A2.pre_batch i b = .ok () → B2.pre_batch i b = .ok () →
      A2.post_batch i (evalFn s b).2.1 = .error e →
      evalLoop [A2, B2] evalFn auto mn s i running2 agg2 (b :: rest) =
        ([Event.preBatch 0 i, Event.preBatch 1 i, Event.evalApply i,
          Event.postBatch 0 i], .error e)) ∧
    (∀ (A2 B2 : EvalCallback Λ) (e : PyError) (i : Nat) (b : List Nat)
        (rest : List (List Nat)) (s : σ) (running2 agg2 : MetricDict),
      A2.pre_batch i b = .ok () → B2.pre_batch i b = .ok () →
      A2.post_batch i (evalFn s b).2.1 = .ok () →
      B2.post_batch i (evalFn s b).2.1 = .error e →
      evalLoop [A2, B2] evalFn auto mn s i running2 agg2 (b :: rest) =
        ([Event.preBatch 0 i, Event.preBatch 1 i, Event.evalApply i,
          Event.postBatch 0 i, Event.postBatch 1 i], .error e)) ∧
    (∀ (dataset : DatasetKind) (Bsz : Nat) (dl sh : Bool) (state : σ) (seed : Nat)
        (dd : Bool) (nd : Nat) (es : Option Nat) (ld : FlaxDataLoader)
        (A2 B2 : EvalCallback Λ) (e : PyError),
      FlaxDataLoader.make dataset Bsz dl sh = .ok ld → deviceCheck dd nd = .ok () →
      (A2.pre_eval_loop = .error e →
        FlaxEvalStep.run dataset Bsz dl sh state evalFn seed dd nd es mn auto [A2, B2] =
          ([Event.preEvalLoop 0], .error e)) ∧
      (A2.pre_eval_loop = .ok () → B2.pre_eval_loop = .error e →
        FlaxEvalStep.run dataset Bsz dl sh state evalFn seed dd nd es mn auto [A2, B2] =
          ([Event.preEvalLoop 0, Event.preEvalLoop 1], .error e))) ∧
    (∀ (dataset : DatasetKind) (Bsz : Nat) (dl sh : Bool) (state : σ) (seed : Nat)
        (dd : Bool) (nd : Nat) (es : Option Nat) (ld : FlaxDataLoader)
        (steps : Option Nat) (batches : List (List Nat)) (loopEvs : List Event)
        (sagg : σ × MetricDict) (A2 B2 : EvalCallback Λ) (e : PyError),
      FlaxDataLoader.make dataset Bsz dl sh = .ok ld →
      resolveSteps ld.dataset_size es = .ok steps →
      deviceCheck dd nd = .ok () →
      A2.pre_eval_loop = .ok () → B2.pre_eval_loop = .ok () →
      evalBatches ld seed dd nd steps = .ok batches →
      evalLoop [A2, B2] evalFn auto mn state 0 [] [] batches = (loopEvs, .ok sagg) →
      (A2.post_eval_loop sagg.2 = .error e →
        FlaxEvalStep.run dataset Bsz dl sh state evalFn seed dd nd es mn auto [A2, B2] =
          ([Event.preEvalLoop 0, Event.preEvalLoop 1] ++ loopEvs ++
            [Event.postEvalLoop 0], .error e)) ∧
      (A2.post_eval_loop sagg.2 = .ok () → B2.post_eval_loop sagg.2 = .error e →
        FlaxEvalStep.run dataset Bsz dl sh state evalFn seed dd nd es mn auto [A2, B2] =
          ([Event.preEvalLoop 0, Event.preEvalLoop 1] ++ loopEvs ++
            [Event.postEvalLoop 0, Event.postEvalLoop 1], .error e))) := by
  refine ⟨evalLoop2_trace A B evalFn auto mn hpreA hpreB hpostA hpostB bs s0 0 running agg,
    ?_, ?_, ?_, ?_, ?_, ?_⟩
  · intro A2 B2 e i b rest s running2 agg2 hfail
    rw [evalLoop]
    simp [runHooksFrom, hfail]
  · intro A2 B2 e i b rest s running2 agg2 hok hfail
    rw [evalLoop]
    simp [runHooksFrom, hok, hfail]
  · intro A2 B2 e i b rest s running2 agg2 hok1 hok2 hfail
    rcases hev : evalFn s b with ⟨s2, lg, mtr⟩
    rw [hev] at hfail
    dsimp only at hfail
    rw [evalLoop]
    simp only [List.map_cons, List.map_nil, runHooksFrom, hok1, hok2, hev, hfail]
    simp
  · intro A2 B2 e i b rest s running2 agg2 hok1 hok2 hok3 hfail
    rcases hev : evalFn s b with ⟨s2, lg, mtr⟩
    rw [hev] at hok3 hfail
    dsimp only at hok3 hfail
    rw [evalLoop]
    simp only [List.map_cons, List.map_nil, runHooksFrom, hok1, hok2, hev, hok3, hfail]
    simp
  · intro dataset Bsz dl sh state seed dd nd es ld A2 B2 e hmk hdev
    obtain ⟨st, hst⟩ := resolveSteps_exists ld.dataset_size es
    constructor
    · intro hfail
      unfold FlaxEvalStep.run
      simp only [hmk]
      simp only [hst]
      simp only [hdev]
      simp [runHooksFrom, hfail]
    · intro hok hfail
      unfold FlaxEvalStep.run
      simp only [hmk]
      simp only [hst]
      simp only [hdev]
      simp [runHooksFrom, hok, hfail]
  · intro dataset Bsz dl sh state seed dd nd es ld steps batches loopEvs sagg A2 B2 e
      hmk hst hdev hok1 hok2 hbat hloop
    constructor
    · intro hfail
      unfold FlaxEvalStep.run
      simp only [hmk]
      simp only [hst]
      simp only [hdev]
      simp only [List.map_cons, List.map_nil, runHooksFrom, hok1, hok2]
      simp only [hbat, hloop, hfail]
    · intro hok3 hfail
      unfold FlaxEvalStep.run
      simp only [hmk]
      simp only [hst]
      simp only [hdev]
      simp only [List.map_cons, List.map_nil, runHooksFrom, hok1, hok2]
      simp only [hbat, hloop, hok3, hfail]

/-- A callback whose hooks all succeed. -/
def okCallback : EvalCallback Unit :=
  ⟨.ok (), fun _ _ => .ok (), fun _ _ => .ok (), fun _ => .ok ()⟩

/-- A callback whose `pre_batch` hook always raises `ValueError`. -/
def failingPreBatchCallback : EvalCallback Unit :=
  ⟨.ok (), fun _ _ => .error .valueError, fun _ _ => .ok (), fun _ => .ok ()⟩

/-- A callback whose `post_batch` hook always raises `KeyError`. -/
def failingPostBatchCallback : EvalCallback Unit :=
  ⟨.ok (), fun _ _ => .ok (), fun _ _ => .error .keyError, fun _ => .ok ()⟩

/-- A callback whose `pre_eval_loop` hook raises `TypeError`. -/
def failingPreLoopCallback : EvalCallback Unit :=
  ⟨.error .typeError, fun _ _ => .ok (), fun _ _ => .ok (), fun _ => .ok ()⟩

/-- A callback whose `post_eval_loop` hook always raises `ValueError`. -/
def failingPostLoopCallback : EvalCallback Unit :=
  ⟨.ok (), fun _ _ => .ok (), fun _ _ => .ok (), fun _ => .error .valueError⟩

/-- Witness for C6: two all-succeeding callbacks over two batches produce
the in-order trace, and a raising hook in every position — first or second
callback's `pre_batch`, `post_batch`, `pre_eval_loop` and `post_eval_loop`
— aborts at exactly that invocation and propagates its exception. -/
theorem c6_callback_order_witness :
    (evalLoop (σ := Unit) [okCallback, okCallback] (fun s _b => (s, (), [])) true ["loss"]
        () 0 [] [] [[0], [1]]).1 = trace2From 0 2 ∧
    evalLoop (σ := Unit) [failingPreBatchCallback, okCallback] (fun s _b => (s, (), []))
        true ["loss"] () 0 [] [] [[0]] = ([Event.preBatch 0 0], .error .valueError) ∧
    evalLoop (σ := Unit) [okCallback, failingPreBatchCallback] (fun s _b => (s, (), []))
        true ["loss"] () 0 [] [] [[0]] =
      ([Event.preBatch 0 0, Event.preBatch 1 0], .error .valueError) ∧
    evalLoop (σ := Unit) [failingPostBatchCallback, okCallback] (fun s _b => (s, (), []))
        true ["loss"] () 0 [] [] [[0]] =
      ([Event.preBatch 0 0, Event.preBatch 1 0, Event.evalApply 0, Event.postBatch 0 0],
        .error .keyError) ∧
    evalLoop (σ := Unit) [okCallback, failingPostBatchCallback] (fun s _b => (s, (), []))
        true ["loss"] () 0 [] [] [[0]] =
      ([Event.preBatch 0 0, Event.preBatch 1 0, Event.evalApply 0, Event.postBatch 0 0,
        Event.postBatch 1 0], .error .keyError) ∧
    FlaxEvalStep.run (σ := Unit) (Λ := Unit) (.hfDataset 1) 1 true false ()
        (fun s _b => (s, (), [])) 0 false 1 none ["loss"] true
        [failingPreLoopCallback, okCallback] =
      ([Event.preEvalLoop 0], .error .typeError) ∧
    FlaxEvalStep.run (σ := Unit) (Λ := Unit) (.hfDataset 1) 1 true false ()
        (fun s _b => (s, (), [])) 0 false 1 none ["loss"] true
        [okCallback, failingPreLoopCallback] =
      ([Event.preEvalLoop 0, Event.preEvalLoop 1], .error .typeError) ∧
    FlaxEvalStep.run (σ := Unit) (Λ := Unit) (.hfDataset 1) 1 true false ()
        (fun s _b => (s, (), [])) 0 false 1 none ["loss"] true
        [failingPostLoopCallback, okCallback] =
      ([Event.preEvalLoop 0, Event.preEvalLoop 1, Event.preBatch 0 0, Event.preBatch 1 0,
        Event.evalApply 0, Event.postBatch 0 0, Event.postBatch 1 0, Event.postEvalLoop 0],
        .error .valueError) ∧
    FlaxEvalStep.run (σ := Unit) (Λ := Unit) (.hfDataset 1) 1 true false ()
        (fun s _b => (s, (), [])) 0 false 1 none ["loss"] true
        [okCallback, failingPostLoopCallback] =
      ([Event.preEvalLoop 0, Event.preEvalLoop 1, Event.preBatch 0 0, Event.preBatch 1 0,
        Event.evalApply 0, Event.postBatch 0 0, Event.postBatch 1 0, Event.postEvalLoop 0,
        Event.postEvalLoop 1], .error .valueError) := by
  have h := c6_callback_order_and_propagation okCallback okCallback
    (fun s _b => (s, (), [])) true ["loss"] () [] [] [[0], [1]]
    (fun _ _ => rfl) (fun _ _ => rfl) (fun _ _ => rfl) (fun _ _ => rfl)
  refine ⟨h.1,
    h.2.1 failingPreBatchCallback okCallback .valueError 0 [0] [] () [] [] rfl,
    h.2.2.1 okCallback failingPreBatchCallback .valueError 0 [0] [] () [] [] rfl rfl,
    h.2.2.2.1 failingPostBatchCallback okCallback .keyError 0 [0] [] () [] [] rfl rfl rfl,
    h.2.2.2.2.1 okCallback failingPostBatchCallback .keyError 0 [0] [] () [] []
      rfl rfl rfl rfl,
    (h.2.2.2.2.2.1 (.hfDataset 1) 1 true false () 0 false 1 none
      ⟨.hfDataset 1, 1, true, false, some 1⟩ failingPreLoopCallback okCallback .typeError
      rfl rfl).1 rfl,
    (h.2.2.2.2.2.1 (.hfDataset 1) 1 true false () 0 false 1 none
      ⟨.hfDataset 1, 1, true, false, some 1⟩ okCallback failingPreLoopCallback .typeError
      rfl rfl).2 rfl rfl,
    (h.2.2.2.2.2.2 (.hfDataset 1) 1 true false () 0 false 1 none
      ⟨.hfDataset 1, 1, true, false, some 1⟩ (some 1) [[0]]
      [Event.preBatch 0 0, Event.preBatch 1 0, Event.evalApply 0, Event.postBatch 0 0,
        Event.postBatch 1 0] ((), []) failingPostLoopCallback okCallback .valueError
      rfl rfl rfl rfl rfl (by decide) (by decide)).1 rfl,
    (h.2.2.2.2.2.2 (.hfDataset 1) 1 true false () 0 false 1 none
      ⟨.hfDataset 1, 1, true, false, some 1⟩ (some 1) [[0]]
      [Event.preBatch 0 0, Event.preBatch 1 0, Event.evalApply 0, Event.postBatch 0 0,
        Event.postBatch 1 0] ((), []) okCallback failingPostLoopCallback .valueError
      rfl rfl rfl rfl rfl (by decide) (by decide)).2 rfl rfl⟩

lemma dictFind_set_eq (d : MetricDict) (k : String) (v : ℚ) :
    dictFind (dictSet d k v) k = some v := by
  induction d with
  | nil => simp [dictSet, dictFind]
  | cons p ps ih =>
    by_cases h : p.1 = k
    · simp [dictSet, h, dictFind]
    · simp [dictSet, h, dictFind, ih]

lemma dictFind_set_ne (d : MetricDict) (k k2 : String) (v : ℚ) (h : k ≠ k2) :
    dictFind (dictSet d k v) k2 = dictFind d k2 := by
  induction d with
  | nil => simp [dictSet, dictFind, h]
  | cons p ps ih =>
    by_cases hp : p.1 = k
    · subst hp
      simp [dictSet, dictFind, h]
    · simp only [dictSet, if_neg hp, dictFind]
      by_cases hp2 : p.1 = k2
      · simp [hp2]
      · simp [hp2, ih]

lemma dictFind_some_exists (d : MetricDict) (k : String) (v0 : ℚ)
    (h : dictFind d k = some v0) : ∃ p ∈ d, p.1 = k := by
  induction d with
  | nil => simp [dictFind] at h
  | cons p ps ih =>
    rw [dictFind] at h
    by_cases hp : p.1 = k
    · exact ⟨p, List.mem_cons_self _ _, hp⟩
    · rw [if_neg hp] at h
      obtain ⟨q, hq, hqk⟩ := ih h
      exact ⟨q, List.mem_cons_of_mem _ hq, hqk⟩

/-- Sum of the first `n` per-step metric values. -/
def sumTo (v : Nat → ℚ) : Nat → ℚ
  | 0 => 0
  | n + 1 => sumTo v n + v n

lemma updateItems_preserve (mn : List String) (i : Nat) (whole : MetricDict) (k : String) :
    ∀ (items : MetricDict) (ra : MetricDict × MetricDict),
      (∀ p ∈ items, p.1 ≠ k) →
      dictFind (updateItems mn i whole ra items).1 k = dictFind ra.1 k ∧
      dictFind (updateItems mn i whole ra items).2 k = dictFind ra.2 k := by
  intro items
  induction items with
  | nil => intro ra _; simp [updateItems]
  | cons p ps ih =>
    intro ra h
    have hp : p.1 ≠ k := h p (List.mem_cons_self _ _)
    have hrest : ∀ q ∈ ps, q.1 ≠ k := fun q hq => h q (List.mem_cons_of_mem _ hq)
    rw [updateItems]
    by_cases hm : p.1 ∈ mn
    · rw [if_pos hm]
      constructor
      · rw [(ih _ hrest).1]
        exact dictFind_set_ne _ _ _ _ hp
      · rw [(ih _ hrest).2]
        exact dictFind_set_ne _ _ _ _ hp
    · rw [if_neg hm]
      exact ih ra hrest

lemma updateItems_hit (mn : List String) (i : Nat) (whole : MetricDict) (k : String)
    (hk : k ∈ mn) :
    ∀ (items : MetricDict) (ra : MetricDict × MetricDict),
      (items.map Prod.fst).Nodup → (∃ p ∈ items, p.1 = k) →
      dictFind (updateItems mn i whole ra items).1 k =
        some (dictGetD ra.1 k + dictGetD whole k) ∧
      dictFind (updateItems mn i whole ra items).2 k =
        some ((dictGetD ra.1 k + dictGetD whole k) / ((i : ℚ) + 1)) := by
  intro items
  induction items with
  | nil => intro ra _ hex; simp at hex
  | cons p ps ih =>
    intro ra hnd hex
    rw [updateItems]
    by_cases hp : p.1 = k
    · subst hp
      rw [if_pos hk]
      rw [List.map_cons, List.nodup_cons] at hnd
      have hps : ∀ q ∈ ps, q.1 ≠ p.1 := by
        intro q hq hcontra
        exact hnd.1 (hcontra ▸ List.mem_map_of_mem Prod.fst hq)
      constructor
      · rw [(updateItems_preserve mn i whole p.1 ps _ hps).1, dictFind_set_eq]
      · rw [(updateItems_preserve mn i whole p.1 ps _ hps).2, dictFind_set_eq]
        congr 1
        simp [dictGetD, dictFind_set_eq]
    · have hex2 : ∃ q ∈ ps, q.1 = k := by
        rcases hex with ⟨q, hq, hqk⟩
        rcases List.mem_cons.mp hq with hqp | hqps
        · exact absurd (hqp ▸ hqk) hp
        · exact ⟨q, hqps, hqk⟩
      rw [List.map_cons, List.nodup_cons] at hnd
      have hnd2 : (ps.map Prod.fst).Nodup := hnd.2
      by_cases hm : p.1 ∈ mn
      · rw [if_pos hm]
        have hgr : dictGetD (dictSet ra.1 p.1
            (dictGetD ra.1 p.1 + dictGetD whole p.1)) k = dictGetD ra.1 k := by
          simp [dictGetD, dictFind_set_ne _ _ _ _ hp]
        constructor
        · rw [(ih _ hnd2 hex2).1, hgr]
        · rw [(ih _ hnd2 hex2).2, hgr]
      · rw [if_neg hm]
        exact ih ra hnd2 hex2

lemma updateItems_keys (mn : List String) (i : Nat) (whole : MetricDict) :
    ∀ (items : MetricDict) (ra : MetricDict × MetricDict) (k2 : String),
      (dictMem ra.2 k2 = true → k2 ∈ mn) →
      dictMem (updateItems mn i whole ra items).2 k2 = true → k2 ∈ mn := by
  intro items
  induction items with
  | nil => intro ra k2 hra h; exact hra (by simpa [updateItems] using h)
  | cons p ps ih =>
    intro ra k2 hra h
    rw [updateItems] at h
    by_cases hm : p.1 ∈ mn
    · rw [if_pos hm] at h
      refine ih _ k2 ?_ h
      intro hmem
      by_cases hk : p.1 = k2
      · exact hk ▸ hm
      · apply hra
        simpa only [dictMem, dictFind_set_ne _ _ _ _ hk] using hmem
    · rw [if_neg hm] at h
      exact ih ra k2 hra h

lemma evalLoop_agg_invariant (mn : List String) (k : String) (hk : k ∈ mn)
    (f : Nat → MetricDict) (v : Nat → ℚ)
    (hf : ∀ j, ((f j).map Prod.fst).Nodup ∧ dictFind (f j) k = some (v j)) :
    ∀ (bs : List (List Nat)) (i : Nat) (running agg : MetricDict),
      dictGetD running k = sumTo v i →
      (∀ k2, dictMem agg k2 = true → k2 ∈ mn) →
      ∃ tr a, evalLoop (Λ := Unit) [] (fun s _b => (s + 1, (), f s)) true mn i i running agg bs =
          (tr, .ok (i + bs.length, a)) ∧
        (bs = [] → a = agg) ∧
        (bs ≠ [] → dictFind a k =
          some (sumTo v (i + bs.length) / (((i + bs.length : Nat) : ℚ)))) ∧
        (∀ k2, dictMem a k2 = true → k2 ∈ mn) := by
  intro bs
  induction bs with
  | nil =>
    intro i running agg _ hagg
    exact ⟨[], agg, by simp [evalLoop], fun _ => rfl, fun h => absurd rfl h, hagg⟩
  | cons b bs ih =>
    intro i running agg hrun hagg
    obtain ⟨hnd, hfind⟩ := hf i
    have hex := dictFind_some_exists _ _ _ hfind
    rcases hupd : updateItems mn i (f i) (running, agg) (f i) with ⟨running2, agg2⟩
    have hhit := updateItems_hit mn i (f i) k hk (f i) (running, agg) hnd hex
    rw [hupd] at hhit
    dsimp only at hhit
    have hgetwhole : dictGetD (f i) k = v i := by simp [dictGetD, hfind]
    have hrun2 : dictGetD running2 k = sumTo v (i + 1) := by
      rw [dictGetD, hhit.1, Option.getD_some, hrun, hgetwhole]
      rfl
    have hkeys2 : ∀ k2, dictMem agg2 k2 = true → k2 ∈ mn := by
      intro k2 h2
      exact updateItems_keys mn i (f i) (f i) (running, agg) k2 (hagg k2)
        (by rw [hupd]; exact h2)
    obtain ⟨tr2, a, hloop2, hnil2, hcons2, hkeys3⟩ := ih (i + 1) running2 agg2 hrun2 hkeys2
    have harith : i + 1 + bs.length = i + (b :: bs).length := by
      simp [List.length_cons]
      omega
    refine ⟨Event.evalApply i :: tr2, a, ?_, ?_, ?_, hkeys3⟩
    · rw [evalLoop]
      simp only [List.map_nil, runHooksFrom, updateMetricsStep, if_true]
      rw [hupd]
      simp only
      rw [hloop2]
      simp only [List.nil_append, List.singleton_append, List.cons_append]
      rw [harith]
    · intro hfalse
      exact absurd hfalse (by simp)
    · intro _
      rcases Decidable.em (bs = []) with hbs | hbs
      · subst hbs
        have hagg2 : a = agg2 := hnil2 rfl
        subst hagg2
        have : dictFind a k =
            some ((dictGetD running k + dictGetD (f i) k) / ((i : ℚ) + 1)) := hhit.2
        rw [this, hrun, hgetwhole]
        have h1 : sumTo v i + v i = sumTo v (i + 1) := rfl
        have h2 : i + ([b] : List (List Nat)).length = i + 1 := by simp
        rw [h2]
        push_cast
        rw [h1]
      · have := hcons2 hbs
        rw [this, harith]

/-- C5: in auto-aggregate mode, for every configured metric name reported
at every step, the aggregate after the loop equals the running mean — the
sum of the per-step values divided by the number of steps — while metric
names outside the configured set never appear in the aggregate. -/
theorem c5_auto_aggregate_running_mean (mn : List String) (k : String) (hk : k ∈ mn)
    (f : Nat → MetricDict) (v : Nat → ℚ)
    (hf : ∀ j, ((f j).map Prod.fst).Nodup ∧ dictFind (f j) k = some (v j))
    (bs : List (List Nat)) (hbs : bs ≠ []) (k2 : String) (hk2 : k2 ∉ mn) :
    ∃ tr a, evalLoop (Λ := Unit) [] (fun s _b => (s + 1, (), f s)) true mn 0 0 [] [] bs =
        (tr, .ok (bs.length, a)) ∧
      dictFind a k = some (sumTo v bs.length / ((bs.length : Nat) : ℚ)) ∧
      dictMem a k2 = false := by
  obtain ⟨tr, a, hloop, _, hcons, hkeys⟩ :=
    evalLoop_agg_invariant mn k hk f v hf bs 0 [] [] (by simp [dictGetD, dictFind, sumTo])
      (by intro k3 h3; simp [dictMem, dictFind] at h3)
  refine ⟨tr, a, by simpa using hloop, by simpa using hcons hbs, ?_⟩
  by_contra hmem
  exact hk2 (hkeys k2 (by simpa using hmem))

/-- Witness for C5: per-step loss values 2, 4, 6 over three batches yield
the aggregate 4 for "loss", and the unconfigured name "acc" is absent. -/
theorem c5_auto_aggregate_witness :
    ∃ tr a, evalLoop (σ := Nat) (Λ := Unit) []
        (fun s _b => (s + 1, (), [("loss", 2 * ((s : ℚ) + 1))])) true ["loss"] 0 0 [] []
        [[0], [1], [2]] =
        (tr, .ok (3, a)) ∧
      dictFind a "loss" = some 4 ∧ dictMem a "acc" = false := by
  obtain ⟨tr, a, hloop, hval, hmem⟩ :=
    c5_auto_aggregate_running_mean ["loss"] "loss" (by simp)
      (fun j => [("loss", 2 * ((j : ℚ) + 1))]) (fun j => 2 * ((j : ℚ) + 1))
      (fun j => ⟨by simp, by simp [dictFind]⟩) [[0], [1], [2]] (by simp) "acc" (by simp)
  refine ⟨tr, a, by simpa using hloop, ?_, hmem⟩
  rw [hval]
  norm_num [sumTo]

/-- Witness for C7 at seed 5, a dataset of 3 rows and batch size 2. -/
theorem c7_shuffle_witness :
    0 < 2 ∧ 2 ≤ 3 ∧
    ∃ p : List Nat, p.Perm (List.range 3) ∧
      FlaxDataLoader.call ⟨.hfDataset 3, 2, true, true, some 3⟩ 5 false 1 = .ok [p.take 2] ∧
      ∀ seed2, seed2 = 5 →
        FlaxDataLoader.call ⟨.hfDataset 3, 2, true, true, some 3⟩ seed2 false 1 =
          FlaxDataLoader.call ⟨.hfDataset 3, 2, true, true, some 3⟩ 5 false 1 :=
  ⟨by decide, by decide, c7_shuffle_permutation_and_determinism 5 3 2 true (by decide) (by decide)⟩

end Tango
